import Mathlib

/-!
Verification of the Lorenz-notebook pipeline (`solve_lorenz` in
`examples-notebook/Lorenz Differential Equations.ipynb`).

The notebook's arithmetic is ordinary field arithmetic on floats; we embed it
over ℚ so every definition is executable and exact.  The two external
libraries the notebook calls into — numpy's seeded RNG and scipy's
`integrate.odeint` — are abstracted by their interfaces: the RNG as a stream
of draws in [0, 1), the solver as any function returning one state row per
requested sample time whose first row is the initial condition.  A concrete
explicit-Euler solver instantiates the solver interface.
-/

/-- The state type of the Lorenz system: a point (x, y, z) in ℚ³. -/
abbrev Q3 := ℚ × ℚ × ℚ

/-- Embedding of the notebook's `lorenz_deriv(x_y_z, t0, sigma, beta, rho)`:
destructure the state and return `[sigma*(y-x), x*(rho-z)-y, x*y-beta*z]`.
The time argument `t0` is accepted and ignored, as in the source. -/
def lorenz_deriv (x_y_z : Q3) (t0 σ β ρ : ℚ) : Q3 :=
  match x_y_z with
  | (x, y, z) => (σ * (y - x), x * (ρ - z) - y, x * y - β * z)

/-- Interface of the numpy RNG stream backing `np.random.random` after
`np.random.seed(1)`: a fixed sequence of draws, each in [0, 1).  The
generator itself (MT19937) is an external library; the notebook relies only
on the seeded stream being such a sequence. -/
def UnitStream (u : ℕ → ℚ) : Prop := ∀ k, 0 ≤ u k ∧ u k < 1

/-- Embedding of `x0 = -15 + 30 * np.random.random((N, 3))`, with the RNG
abstracted as the draw stream `u`; numpy fills the (N, 3) array in row-major
order, so row `i` uses draws `3i`, `3i+1`, `3i+2`. -/
def x0 (u : ℕ → ℚ) (N : ℕ) : List Q3 :=
  (List.range N).map fun i =>
    (-15 + 30 * u (3 * i), -15 + 30 * u (3 * i + 1), -15 + 30 * u (3 * i + 2))

/-- Python's `int()` applied to a numeric value: truncation toward zero. -/
def pyInt (q : ℚ) : ℤ := if 0 ≤ q then ⌊q⌋ else -⌊-q⌋

/-- Embedding of `np.linspace(a, b, n)` (with the default `endpoint=True`):
`n` evenly spaced points from `a` to `b`; `n = 0` gives an empty array and
`n = 1` gives `[a]`. -/
def linspace (a b : ℚ) (n : ℕ) : List ℚ :=
  if n = 0 then []
  else if n = 1 then [a]
  else (List.range n).map fun i : ℕ => a + (b - a) * (i : ℚ) / ((n : ℚ) - 1)

/-- The notebook's sample count `int(250 * max_time)`. -/
def sampleCount (maxTime : ℚ) : ℤ := pyInt (250 * maxTime)

/-- Embedding of `t = np.linspace(0, max_time, int(250*max_time))`.
`np.linspace` raises for a negative sample count, modelled as `none`. -/
def t (maxTime : ℚ) : Option (List ℚ) :=
  if 0 ≤ sampleCount maxTime then
    some (linspace 0 maxTime (sampleCount maxTime).toNat)
  else none

/-- The shape of an ODE solver as `integrate.odeint` is used in the notebook:
it takes the derivative function, an initial state and the requested sample
times, and returns a list of states. -/
def OdeSolver : Type := (Q3 → ℚ → Q3) → Q3 → List ℚ → List Q3

/-- The documented output contract of `integrate.odeint`: the result has one
state row per requested sample time, and the first row is the initial
condition.  The solver internals are an external library; the notebook
relies only on this interface. -/
def OdeContract (ode : OdeSolver) : Prop :=
  ∀ f y0 ts, (ode f y0 ts).length = ts.length ∧
    ∀ t0 rest, ts = t0 :: rest → (ode f y0 ts).head? = some y0

/-- Embedding of
`x_t = np.asarray([integrate.odeint(lorenz_deriv, x0i, t) for x0i in x0])`,
parametric in the solver and in the RNG stream.  All trajectories use the
single shared grid `t max_time`. -/
def x_t (ode : OdeSolver) (u : ℕ → ℚ) (N : ℕ) (maxTime σ β ρ : ℚ) :
    Option (List (List Q3)) :=
  (t maxTime).map fun grid =>
    (x0 u N).map fun x0i => ode (fun s t0 => lorenz_deriv s t0 σ β ρ) x0i grid

/-- Embedding of `colors = plt.cm.jet(np.linspace(0, 1, N))`, modelled as the
list of color-map positions fed to the (external) jet color map. -/
def colors (N : ℕ) : List ℚ := linspace 0 1 N

/-- Embedding of the plotting loop
`for i in range(N): ... ax.plot(x, y, z, c=colors[i])`: the list of
(trajectory, color position) pairs that get drawn. -/
def drawnLines (trajs : List (List Q3)) (cols : List ℚ) (N : ℕ) :
    List (List Q3 × ℚ) :=
  (List.range N).map fun i => (trajs.getD i [], cols.getD i 0)

/-- The plotting loop indexes `x_t[i]` and `colors[i]` for every `i < N`; it
completes without an index error exactly when both arrays hold at least `N`
entries. -/
def renderOk (trajs : List (List Q3)) (cols : List ℚ) (N : ℕ) : Bool :=
  decide (N ≤ trajs.length) && decide (N ≤ cols.length)

/-- One Euler update: `y + h * d` componentwise. -/
def axpyQ3 (h : ℚ) (y d : Q3) : Q3 :=
  (y.1 + h * d.1, y.2.1 + h * d.2.1, y.2.2 + h * d.2.2)

/-- Forward-Euler stepping along the remaining grid points, recording the
state at the current grid point first. -/
def eulerFrom (f : Q3 → ℚ → Q3) (y : Q3) (t0 : ℚ) : List ℚ → List Q3
  | [] => [y]
  | t1 :: ts => y :: eulerFrom f (axpyQ3 (t1 - t0) y (f y t0)) t1 ts

/-- A concrete explicit-Euler ODE solver; it satisfies `OdeContract` and
stands in for `integrate.odeint` in witnesses of the solver-parametric
theorems. -/
def eulerOdeint (f : Q3 → ℚ → Q3) (y0 : Q3) : List ℚ → List Q3
  | [] => []
  | t0 :: ts => eulerFrom f y0 t0 ts

/- ## Helper lemmas -/

theorem eulerFrom_length (f : Q3 → ℚ → Q3) :
    ∀ (ts : List ℚ) (y : Q3) (t0 : ℚ), (eulerFrom f y t0 ts).length = ts.length + 1 := by
  intro ts
  induction ts with
  | nil => intro y t0; rfl
  | cons t1 ts ih => intro y t0; simp [eulerFrom, ih]

theorem euler_contract : OdeContract eulerOdeint := by
  intro f y0 ts
  constructor
  · cases ts with
    | nil => rfl
    | cons t0 rest => simp [eulerOdeint, eulerFrom_length]
  · intro t0 rest hts
    subst hts
    cases rest with
    | nil => rfl
    | cons t1 ts => rfl

theorem x0_mem (u : ℕ → ℚ) (N : ℕ) (p : Q3) (hp : p ∈ x0 u N) :
    ∃ i, i < N ∧
      p = (-15 + 30 * u (3 * i), -15 + 30 * u (3 * i + 1), -15 + 30 * u (3 * i + 2)) := by
  unfold x0 at hp
  obtain ⟨i, hi, rfl⟩ := List.mem_map.mp hp
  exact ⟨i, List.mem_range.mp hi, rfl⟩

theorem linspace_length (a b : ℚ) (n : ℕ) : (linspace a b n).length = n := by
  unfold linspace
  by_cases h0 : n = 0
  · simp [h0]
  · by_cases h1 : n = 1
    · simp [h0, h1]
    · rw [if_neg h0, if_neg h1, List.length_map, List.length_range]

theorem linspace_getD (a b : ℚ) (n i : ℕ) (h2 : 2 ≤ n) (hi : i < n) :
    (linspace a b n).getD i 0 = a + (b - a) * (i : ℚ) / ((n : ℚ) - 1) := by
  have h0 : n ≠ 0 := by omega
  have h1 : n ≠ 1 := by omega
  unfold linspace
  rw [if_neg h0, if_neg h1, List.getD_eq_getElem?_getD, List.getElem?_map,
    List.getElem?_range hi]
  rfl

theorem sampleCount_natCast_div (k : ℕ) : sampleCount ((k : ℚ) / 250) = k := by
  unfold sampleCount pyInt
  have h : (250 : ℚ) * ((k : ℚ) / 250) = (k : ℚ) := by
    field_simp
  rw [h]
  rw [if_pos (by positivity)]
  exact Int.floor_natCast k

theorem sampleCount_nonneg (maxTime : ℚ) (h : 0 ≤ maxTime) :
    0 ≤ sampleCount maxTime := by
  have h250 : (0 : ℚ) ≤ 250 * maxTime := mul_nonneg (by norm_num) h
  unfold sampleCount pyInt
  rw [if_pos h250]
  exact Int.le_floor.mpr (by exact_mod_cast h250)

theorem t_eq_of_nonneg (maxTime : ℚ) (h : 0 ≤ maxTime) :
    t maxTime = some (linspace 0 maxTime (sampleCount maxTime).toNat) := by
  unfold t
  rw [if_pos (sampleCount_nonneg maxTime h)]

/-- Claim C1: `lorenz_deriv` returns exactly
(σ(y−x), x(ρ−z)−y, xy−βz) for every state and coefficients. -/
theorem lorenz_deriv_formula (x y z t0 σ β ρ : ℚ) :
    lorenz_deriv (x, y, z) t0 σ β ρ =
      (σ * (y - x), x * (ρ - z) - y, x * y - β * z) := rfl

/-- Claim C2: at the state (0, 0, 0) the derivative is (0, 0, 0) for all
coefficients σ, β, ρ. -/
theorem lorenz_deriv_zero_fixed_point (t0 σ β ρ : ℚ) :
    lorenz_deriv (0, 0, 0) t0 σ β ρ = (0, 0, 0) := by
  simp [lorenz_deriv]

/-- Claim C3: for the seeded draw stream the set of N initial conditions is
a deterministic function of the stream (hence of the seed) and N — two
pointwise-equal streams give equal sets — and every coordinate of every
generated point lies within [-15, 15]. -/
theorem x0_deterministic_and_bounded (u v : ℕ → ℚ) (N : ℕ)
    (hu : UnitStream u) (huv : ∀ k, u k = v k) :
    x0 u N = x0 v N ∧
    ∀ p ∈ x0 u N,
      (-15 ≤ p.1 ∧ p.1 ≤ 15) ∧ (-15 ≤ p.2.1 ∧ p.2.1 ≤ 15) ∧
        (-15 ≤ p.2.2 ∧ p.2.2 ≤ 15) := by
  constructor
  · rw [funext huv]
  · intro p hp
    obtain ⟨i, _, rfl⟩ := x0_mem u N p hp
    obtain ⟨l0, r0⟩ := hu (3 * i)
    obtain ⟨l1, r1⟩ := hu (3 * i + 1)
    obtain ⟨l2, r2⟩ := hu (3 * i + 2)
    refine ⟨⟨?_, ?_⟩, ⟨?_, ?_⟩, ?_, ?_⟩ <;> dsimp only <;> linarith

theorem x0_deterministic_and_bounded_witness :
    x0 (fun _ => (0 : ℚ)) 1 = x0 (fun _ => (0 : ℚ)) 1 ∧
    ∀ p ∈ x0 (fun _ => (0 : ℚ)) 1,
      (-15 ≤ p.1 ∧ p.1 ≤ 15) ∧ (-15 ≤ p.2.1 ∧ p.2.1 ≤ 15) ∧
        (-15 ≤ p.2.2 ∧ p.2.2 ≤ 15) :=
  x0_deterministic_and_bounded (fun _ => 0) (fun _ => 0) 1
    (fun _ => ⟨le_refl 0, by norm_num⟩) (fun _ => rfl)

/-- Claim C9: every generated coordinate is strictly below 15 — the draws
lie in [0, 1), so each coordinate is -15 + 30·u < 15 — while the lower
endpoint -15 is attained by the admissible stream that draws 0. -/
theorem x0_upper_strict_lower_attained (u : ℕ → ℚ) (N : ℕ) (hu : UnitStream u) :
    (∀ p ∈ x0 u N, p.1 < 15 ∧ p.2.1 < 15 ∧ p.2.2 < 15) ∧
    UnitStream (fun _ => (0 : ℚ)) ∧
    x0 (fun _ => (0 : ℚ)) 1 = [(-15, -15, -15)] := by
  refine ⟨?_, fun _ => ⟨le_refl 0, by norm_num⟩, ?_⟩
  · intro p hp
    obtain ⟨i, _, rfl⟩ := x0_mem u N p hp
    obtain ⟨l0, r0⟩ := hu (3 * i)
    obtain ⟨l1, r1⟩ := hu (3 * i + 1)
    obtain ⟨l2, r2⟩ := hu (3 * i + 2)
    refine ⟨?_, ?_, ?_⟩ <;> dsimp only <;> linarith
  · simp [x0, List.range_succ]

theorem x0_upper_strict_lower_attained_witness :
    (∀ p ∈ x0 (fun _ => (1 : ℚ)/2) 1, p.1 < 15 ∧ p.2.1 < 15 ∧ p.2.2 < 15) ∧
    UnitStream (fun _ => (0 : ℚ)) ∧
    x0 (fun _ => (0 : ℚ)) 1 = [(-15, -15, -15)] :=
  x0_upper_strict_lower_attained (fun _ => 1/2) 1
    (fun _ => ⟨by norm_num, by norm_num⟩)

/-- Claim C6: two runs of the trajectory-generation step with the same
solver, seed stream and parameters (N, max_time, σ, β, ρ) produce identical
trajectory arrays. -/
theorem x_t_two_run_deterministic (ode : OdeSolver) (u1 u2 : ℕ → ℚ)
    (N : ℕ) (maxTime σ β ρ : ℚ) (h : ∀ k, u1 k = u2 k) :
    x_t ode u1 N maxTime σ β ρ = x_t ode u2 N maxTime σ β ρ := by
  rw [funext h]

theorem x_t_two_run_deterministic_witness :
    x_t eulerOdeint (fun _ => (0 : ℚ)) 2 4 10 (8/3) 28 =
      x_t eulerOdeint (fun k => 0 * (k : ℚ)) 2 4 10 (8/3) 28 :=
  x_t_two_run_deterministic eulerOdeint (fun _ => 0) (fun k => 0 * (k : ℚ))
    2 4 10 (8/3) 28 (fun k => (zero_mul (k : ℚ)).symm)

/-- Claim C10: with N = 0 (an allowed slider value) the pipeline completes:
the initial-condition set is empty, the trajectory array is empty, the
color array is empty, and the plotting loop performs no array access and
draws zero trajectories. -/
theorem pipeline_empty_N_zero (ode : OdeSolver) (u : ℕ → ℚ)
    (maxTime σ β ρ : ℚ) (h : 0 ≤ maxTime) :
    x0 u 0 = [] ∧
    x_t ode u 0 maxTime σ β ρ = some [] ∧
    colors 0 = [] ∧
    renderOk [] (colors 0) 0 = true ∧
    drawnLines [] (colors 0) 0 = [] := by
  have hx0 : x0 u 0 = [] := by simp [x0]
  refine ⟨hx0, ?_, ?_, ?_, ?_⟩
  · unfold x_t
    rw [t_eq_of_nonneg maxTime h]
    simp [hx0]
  · simp [colors, linspace]
  · rfl
  · rfl

theorem pipeline_empty_N_zero_witness :
    x0 (fun _ => (0 : ℚ)) 0 = [] ∧
    x_t eulerOdeint (fun _ => (0 : ℚ)) 0 4 10 (8/3) 28 = some [] ∧
    colors 0 = [] ∧
    renderOk [] (colors 0) 0 = true ∧
    drawnLines [] (colors 0) 0 = [] :=
  pipeline_empty_N_zero eulerOdeint (fun _ => 0) 4 10 (8/3) 28 (by norm_num)

/-- Claim C8: for N ≥ 2 there are N color-map positions, trajectory i is
drawn with the position i/(N−1) on [0, 1], the positions are pairwise
distinct (one color per trajectory), and the loop pairs trajectory i with
color position i. -/
theorem colors_evenly_spaced (N : ℕ) (h2 : 2 ≤ N) :
    (colors N).length = N ∧
    (∀ i, i < N → (colors N).getD i 0 = (i : ℚ) / ((N : ℚ) - 1)) ∧
    (∀ i j, i < N → j < N → i ≠ j →
      (colors N).getD i 0 ≠ (colors N).getD j 0) ∧
    (∀ trajs i, i < N →
      (drawnLines trajs (colors N) N).getD i ([], 0) =
        (trajs.getD i [], (colors N).getD i 0)) := by
  have hN1 : ((N : ℚ) - 1) ≠ 0 := by
    have h2q : (2 : ℚ) ≤ (N : ℚ) := by exact_mod_cast h2
    intro hcontra
    linarith
  have hget : ∀ i, i < N → (colors N).getD i 0 = (i : ℚ) / ((N : ℚ) - 1) := by
    intro i hi
    unfold colors
    rw [linspace_getD 0 1 N i h2 hi]
    ring
  refine ⟨linspace_length 0 1 N, hget, ?_, ?_⟩
  · intro i j hi hj hij hcontra
    rw [hget i hi, hget j hj] at hcontra
    field_simp at hcontra
    exact hij hcontra
  · intro trajs i hi
    unfold drawnLines
    rw [List.getD_eq_getElem?_getD, List.getElem?_map, List.getElem?_range hi]
    rfl

theorem colors_evenly_spaced_witness :
    (colors 3).length = 3 ∧
    (∀ i, i < 3 → (colors 3).getD i 0 = (i : ℚ) / ((3 : ℚ) - 1)) ∧
    (∀ i j, i < 3 → j < 3 → i ≠ j →
      (colors 3).getD i 0 ≠ (colors 3).getD j 0) ∧
    (∀ trajs i, i < 3 →
      (drawnLines trajs (colors 3) 3).getD i ([], 0) =
        (trajs.getD i [], (colors 3).getD i 0)) := by
  have h := colors_evenly_spaced 3 (by norm_num)
  exact_mod_cast h

theorem x0_length (u : ℕ → ℚ) (N : ℕ) : (x0 u N).length = N := by
  unfold x0
  rw [List.length_map, List.length_range]

/-- Claim C4 counterexample: at max_time = 1/500 the single produced
trajectory has 0 samples, while 250 · (1/500) = 1/2 ≠ 0, so the sample
count does not equal 250·max_time for every horizon. -/
theorem sample_count_claim_cex :
    x_t eulerOdeint (fun _ => (0 : ℚ)) 1 (1/500) 10 (8/3) 28 = some [[]] ∧
    (250 : ℚ) * (1/500) ≠ (([] : List Q3).length : ℚ) := by
  constructor
  · unfold x_t
    rw [t_eq_of_nonneg (1/500) (by norm_num)]
    have hsc : sampleCount (1/500 : ℚ) = 0 := by
      unfold sampleCount pyInt
      rw [if_pos (by norm_num)]
      norm_num
    rw [hsc]
    simp [linspace, x0, List.range_succ, eulerOdeint]
  · simp

/-- Claim C4 amended: the sample count is int(250·max_time), i.e.
250·max_time truncated toward zero; it equals 250·max_time exactly on
horizons of the form k/250, and then every produced trajectory has k
samples. -/
theorem sample_count_truncated (k : ℕ) (mt : ℚ) (hmt : mt = (k : ℚ) / 250)
    (ode : OdeSolver) (hode : OdeContract ode) (u : ℕ → ℚ) (N : ℕ)
    (σ β ρ : ℚ) :
    sampleCount mt = k ∧
    ∃ trajs, x_t ode u N mt σ β ρ = some trajs ∧ trajs.length = N ∧
      ∀ tr ∈ trajs, tr.length = k := by
  subst hmt
  have hsc := sampleCount_natCast_div k
  have hpos : (0 : ℚ) ≤ (k : ℚ) / 250 := by positivity
  refine ⟨hsc,
    (x0 u N).map fun x0i => ode (fun s t0 => lorenz_deriv s t0 σ β ρ) x0i
      (linspace 0 ((k : ℚ) / 250) (sampleCount ((k : ℚ) / 250)).toNat),
    ?_, ?_, ?_⟩
  · unfold x_t
    rw [t_eq_of_nonneg _ hpos]
    rfl
  · rw [List.length_map, x0_length]
  · intro tr htr
    obtain ⟨x0i, _, rfl⟩ := List.mem_map.mp htr
    rw [(hode _ x0i _).1, linspace_length, hsc, Int.toNat_natCast]

theorem sample_count_truncated_witness :
    sampleCount ((2 : ℚ) / 250) = 2 ∧
    ∃ trajs,
      x_t eulerOdeint (fun _ => (0 : ℚ)) 3 ((2 : ℚ) / 250) 10 (8/3) 28 =
        some trajs ∧
      trajs.length = 3 ∧ ∀ tr ∈ trajs, tr.length = 2 :=
  sample_count_truncated 2 ((2 : ℚ) / 250) (by norm_num) eulerOdeint
    euler_contract (fun _ => 0) 3 10 (8/3) 28

/-- Claim C5 counterexample: at max_time = 0 the grid has int(250·0) = 0
points, so the produced trajectory is the empty list of samples — not a
single sample equal to its initial condition (-15, -15, -15). -/
theorem zero_horizon_claim_cex :
    x_t eulerOdeint (fun _ => (0 : ℚ)) 1 0 10 (8/3) 28 = some [[]] ∧
    ([] : List Q3) ≠ [((-15 : ℚ), -15, -15)] := by
  constructor
  · unfold x_t
    rw [t_eq_of_nonneg 0 le_rfl]
    have hsc : sampleCount (0 : ℚ) = 0 := by
      unfold sampleCount pyInt
      norm_num
    rw [hsc]
    simp [linspace, x0, List.range_succ, eulerOdeint]
  · simp

/-- Claim C5 amended: for every contract-abiding solver and any σ, β, ρ,
with max_time = 0 the time grid is empty and each produced trajectory is
the empty list of samples, not a single point. -/
theorem zero_horizon_trajs_empty (ode : OdeSolver) (hode : OdeContract ode)
    (u : ℕ → ℚ) (N : ℕ) (σ β ρ : ℚ) :
    x_t ode u N 0 σ β ρ = some ((x0 u N).map fun _ => ([] : List Q3)) := by
  have hsc : sampleCount (0 : ℚ) = 0 := by
    unfold sampleCount pyInt
    norm_num
  unfold x_t
  rw [t_eq_of_nonneg 0 le_rfl, hsc]
  show some _ = some _
  congr 1
  apply List.map_congr_left
  intro x0i _
  have hlen := (hode (fun s t0 => lorenz_deriv s t0 σ β ρ) x0i
    (linspace 0 0 (Int.toNat 0))).1
  rw [show linspace 0 0 (Int.toNat 0) = [] from rfl] at hlen
  exact List.length_eq_zero.mp hlen

theorem zero_horizon_trajs_empty_witness :
    x_t eulerOdeint (fun _ => (1 : ℚ)/2) 2 0 10 (8/3) 28 = some [[], []] := by
  have h := zero_horizon_trajs_empty eulerOdeint euler_contract
    (fun _ => (1 : ℚ)/2) 2 10 (8/3) 28
  rw [h]
  simp [x0, List.range_succ]

/-- Claim C7 counterexample: at max_time = 1/200 the sample count is
int(1.25) = 1 and the grid is the single point [0], which does not end at
the configured horizon 1/200. -/
theorem grid_endpoint_cex :
    t (1/200) = some [0] ∧ ((0 : ℚ) ≠ 1/200) := by
  constructor
  · rw [t_eq_of_nonneg (1/200) (by norm_num)]
    have hsc : sampleCount (1/200 : ℚ) = 1 := by
      unfold sampleCount pyInt
      rw [if_pos (by norm_num)]
      norm_num
    rw [hsc]
    rfl
  · norm_num

/-- Claim C7 amended: all N trajectories are computed on the one shared
grid; whenever the sample count int(250·max_time) is at least 2, the grid
points are evenly spaced, start at 0 and end at the configured horizon
(with 0 or 1 samples the grid is empty or the single point 0). -/
theorem grid_shared_even_spacing (mt : ℚ) (h2 : 2 ≤ sampleCount mt) :
    ∃ grid, t mt = some grid ∧
      grid.length = (sampleCount mt).toNat ∧
      grid.getD 0 0 = 0 ∧
      grid.getD (grid.length - 1) 0 = mt ∧
      (∀ i, i + 1 < grid.length →
        grid.getD (i + 1) 0 - grid.getD i 0 = mt / ((grid.length : ℚ) - 1)) ∧
      ∀ ode u N σ β ρ, x_t ode u N mt σ β ρ =
        some ((x0 u N).map fun x0i =>
          ode (fun s t0 => lorenz_deriv s t0 σ β ρ) x0i grid) := by
  have ht : t mt = some (linspace 0 mt (sampleCount mt).toNat) := by
    unfold t
    rw [if_pos (by omega)]
  have hn2 : 2 ≤ (sampleCount mt).toNat := by omega
  have hlen : (linspace 0 mt (sampleCount mt).toNat).length =
      (sampleCount mt).toNat := linspace_length 0 mt _
  have hc : ((((sampleCount mt).toNat : ℚ)) - 1) ≠ 0 := by
    have : (2 : ℚ) ≤ ((sampleCount mt).toNat : ℚ) := by exact_mod_cast hn2
    intro hcon
    linarith
  refine ⟨linspace 0 mt (sampleCount mt).toNat, ht, hlen, ?_, ?_, ?_, ?_⟩
  · rw [linspace_getD 0 mt _ 0 hn2 (by omega)]
    norm_num
  · rw [hlen, linspace_getD 0 mt _ ((sampleCount mt).toNat - 1) hn2 (by omega)]
    rw [Nat.cast_sub (by omega), Nat.cast_one, mul_div_assoc, div_self hc]
    ring
  · intro i hi
    rw [hlen] at hi
    rw [linspace_getD 0 mt _ (i + 1) hn2 (by omega),
      linspace_getD 0 mt _ i hn2 (by omega), hlen]
    push_cast
    rw [zero_add, zero_add, div_sub_div_same]
    congr 1
    ring
  · intro ode u N σ β ρ
    unfold x_t
    rw [ht]
    rfl

theorem grid_shared_even_spacing_witness :
    ∃ grid, t (1/125) = some grid ∧
      grid.length = (sampleCount (1/125)).toNat ∧
      grid.getD 0 0 = 0 ∧
      grid.getD (grid.length - 1) 0 = 1/125 ∧
      (∀ i, i + 1 < grid.length →
        grid.getD (i + 1) 0 - grid.getD i 0 = (1/125) / ((grid.length : ℚ) - 1)) ∧
      ∀ ode u N σ β ρ, x_t ode u N (1/125) σ β ρ =
        some ((x0 u N).map fun x0i =>
          ode (fun s t0 => lorenz_deriv s t0 σ β ρ) x0i grid) := by
  apply grid_shared_even_spacing (1/125)
  have hsc : sampleCount (1/125 : ℚ) = 2 := by
    unfold sampleCount pyInt
    rw [if_pos (by norm_num)]
    norm_num
  omega
